import Mathlib

/-!
Shallow embedding of the Productivity Insights and Notification Scheduling
Engine of the task-manager backend (src/task-manager-backend.py), together
with theorems checking the natural-language specification against it.

The embedded entry points are `analyze_productive_time`,
`analyze_completion_rate`, `analyze_category_performance`,
`recommend_task_order`, the pure core of `generate_task_insights`
(its database fetches and writes are external collaborators), and the pure
core of `schedule_smart_notifications`.  Python `datetime` values are
modelled by `PyDateTime`; Python numbers (the int/float distinction matters
for `round` and string interpolation) by `PyNum` with floats modelled as
exact rationals; raising `ValueError` is modelled with `Except`.
-/

namespace TaskManager

/-- A single apostrophe character; several message templates of the source
interpolate titles and categories between apostrophes. -/
def apos : String := String.singleton (Char.ofNat 39)

/-- Python numeric value: `int` or `float`.  Python floats are modelled by
exact rationals (the computations in the source stay well within ranges
where this matches IEEE double behaviour for the properties claimed). -/
inductive PyNum where
  | int (n : Int)
  | float (q : ℚ)
deriving DecidableEq

/-- Numeric value of a `PyNum` (Python compares ints and floats
numerically). -/
def PyNum.toRat : PyNum → ℚ
  | .int n => (n : ℚ)
  | .float q => q

/-- Python `round(x)` to an integer: round-half-to-even (banker's
rounding), as `round` does on ints/floats. -/
def pyRoundHalfEvenInt (q : ℚ) : Int :=
  let f := ⌊q⌋
  let r := q - (f : ℚ)
  if r < 1/2 then f
  else if 1/2 < r then f + 1
  else if f % 2 = 0 then f else f + 1

/-- Python `round(x, 1)` on a float, modelled on exact rationals. -/
def round1 (q : ℚ) : ℚ := (pyRoundHalfEvenInt (q * 10) : ℚ) / 10

/-- Python `round(x, 1)` on a Python number: `round` on an int returns the
int unchanged, on a float it returns a float. -/
def pyRound1 : PyNum → PyNum
  | .int n => .int n
  | .float q => .float (round1 q)

/-- Rendering of a nonnegative one-decimal float by `str` or an f-string
(for values produced by `round(x, 1)`, e.g. `100.0` renders as "100.0",
`85.7` as "85.7"). -/
def fmtRat1 (q : ℚ) : String :=
  let n := ⌊q * 10⌋
  toString (n / 10) ++ "." ++ toString (Int.emod n 10)

/-- Rendering of a `PyNum` by `str` or an f-string: ints carry no decimal
point (`0` renders as "0"), floats render with their one decimal. -/
def PyNum.render : PyNum → String
  | .int n => toString n
  | .float q => fmtRat1 q

/-- A Python `datetime.datetime` value (naive, second precision: the
source only ever builds and parses such values). -/
structure PyDateTime where
  year : Nat
  month : Nat
  day : Nat
  hour : Nat
  minute : Nat
  second : Nat
deriving DecidableEq

/-- Days from civil date (proleptic Gregorian), the standard
days-from-civil algorithm; day 0 is 1970-01-01. -/
def daysFromCivil (y m d : Int) : Int :=
  let y2 := if m ≤ 2 then y - 1 else y
  let era := Int.fdiv y2 400
  let yoe := y2 - era * 400
  let mp := Int.emod (m + 9) 12
  let doy := Int.fdiv (153 * mp + 2) 5 + d - 1
  let doe := yoe * 365 + Int.fdiv yoe 4 - Int.fdiv yoe 100 + doy
  era * 146097 + doe - 719468

/-- Inverse of `daysFromCivil`: civil date from a day number. -/
def civilFromDays (z : Int) : Int × Int × Int :=
  let z2 := z + 719468
  let era := Int.fdiv z2 146097
  let doe := z2 - era * 146097
  let yoe := Int.fdiv (doe - Int.fdiv doe 1460 + Int.fdiv doe 36524 - Int.fdiv doe 146096) 365
  let y := yoe + era * 400
  let doy := doe - (365 * yoe + Int.fdiv yoe 4 - Int.fdiv yoe 100)
  let mp := Int.fdiv (5 * doy + 2) 153
  let d := doy - Int.fdiv (153 * mp + 2) 5 + 1
  let m := mp + (if mp < 10 then 3 else -9)
  (if m ≤ 2 then y + 1 else y, m, d)

/-- Seconds since the epoch of a `PyDateTime`.  Chronological comparison of
Python datetimes and `timedelta` arithmetic are modelled through this
value. -/
def toEpochSecs (t : PyDateTime) : Int :=
  daysFromCivil (t.year : Int) (t.month : Int) (t.day : Int) * 86400
    + (t.hour : Int) * 3600 + (t.minute : Int) * 60 + (t.second : Int)

/-- `PyDateTime` from seconds since the epoch. -/
def ofEpochSecs (z : Int) : PyDateTime :=
  let days := Int.fdiv z 86400
  let rem := Int.emod z 86400
  let c := civilFromDays days
  { year := c.1.toNat, month := c.2.1.toNat, day := c.2.2.toNat
  , hour := (Int.fdiv rem 3600).toNat
  , minute := (Int.fdiv (Int.emod rem 3600) 60).toNat
  , second := (Int.emod rem 60).toNat }

/-- Python `(a - b).days`: `timedelta` day count, which is the floor of
the difference in days (negative remainders push the day count down). -/
def timedeltaDays (a b : PyDateTime) : Int :=
  Int.fdiv (toEpochSecs a - toEpochSecs b) 86400

/-- Numeric value of a digit character. -/
def digitVal (c : Char) : Nat := c.toNat - 48

/-- Two-digit number from two characters, if both are digits. -/
def num2 (a b : Char) : Option Nat :=
  if a.isDigit && b.isDigit then some (digitVal a * 10 + digitVal b) else none

/-- Four-digit number from four characters, if all are digits. -/
def num4 (a b c d : Char) : Option Nat :=
  if a.isDigit && b.isDigit && c.isDigit && d.isDigit then
    some (digitVal a * 1000 + digitVal b * 100 + digitVal c * 10 + digitVal d)
  else none

/-- Gregorian leap-year test. -/
def isLeap (y : Nat) : Bool := y % 4 == 0 && (y % 100 != 0 || y % 400 == 0)

/-- Length of a month, as validated by `datetime`. -/
def daysInMonth (y m : Nat) : Nat :=
  if m = 2 then (if isLeap y then 29 else 28)
  else if m = 4 ∨ m = 6 ∨ m = 9 ∨ m = 11 then 30
  else 31

/-- Range validation performed by the `datetime` constructor. -/
def mkDateTime (y mo d : Nat) (tm : Nat × Nat × Nat) : Option PyDateTime :=
  if 1 ≤ y ∧ y ≤ 9999 ∧ 1 ≤ mo ∧ mo ≤ 12 ∧ 1 ≤ d ∧ d ≤ daysInMonth y mo
      ∧ tm.1 ≤ 23 ∧ tm.2.1 ≤ 59 ∧ tm.2.2 ≤ 59 then
    some ⟨y, mo, d, tm.1, tm.2.1, tm.2.2⟩
  else none

/-- Time-of-day part of an ISO string: `HH:MM` or `HH:MM:SS`. -/
def parseTimePart : List Char → Option (Nat × Nat × Nat)
  | [h1, h2, ':', m1, m2] =>
    match num2 h1 h2, num2 m1 m2 with
    | some hh, some mm => some (hh, mm, 0)
    | _, _ => none
  | [h1, h2, ':', m1, m2, ':', s1, s2] =>
    match num2 h1 h2, num2 m1 m2, num2 s1 s2 with
    | some hh, some mm, some ss => some (hh, mm, ss)
    | _, _, _ => none
  | _ => none

/-- Model of CPython's `datetime.datetime.fromisoformat` on the formats the
source produces and consumes: `YYYY-MM-DD`, optionally followed by a
single separator character and `HH:MM[:SS]`.  Returns `none` where the
library raises `ValueError`. -/
def fromisoformatCore (s : String) : Option PyDateTime :=
  match s.data with
  | [y1, y2, y3, y4, '-', m1, m2, '-', d1, d2] =>
    match num4 y1 y2 y3 y4, num2 m1 m2, num2 d1 d2 with
    | some y, some mo, some d => mkDateTime y mo d (0, 0, 0)
    | _, _, _ => none
  | y1 :: y2 :: y3 :: y4 :: '-' :: m1 :: m2 :: '-' :: d1 :: d2 :: _ :: rest =>
    match num4 y1 y2 y3 y4, num2 m1 m2, num2 d1 d2, parseTimePart rest with
    | some y, some mo, some d, some tm => mkDateTime y mo d tm
    | _, _, _, _ => none
  | _ => none

/-- The exception values the embedded code can raise. -/
inductive PyExc where
  | valueError
deriving DecidableEq

/-- `datetime.fromisoformat` called outside a `try` block: raises
(`Except.error`) on an unparseable string. -/
def fromisoformatExc (s : String) : Except PyExc PyDateTime :=
  match fromisoformatCore s with
  | some d => .ok d
  | none => .error .valueError

/-- Zero-padded two-digit rendering (`strftime` field). -/
def pad2 (n : Nat) : String := if n < 10 then "0" ++ toString n else toString n

/-- Zero-padded four-digit rendering (`strftime` `%Y`). -/
def pad4 (n : Nat) : String :=
  if n < 10 then "000" ++ toString n
  else if n < 100 then "00" ++ toString n
  else if n < 1000 then "0" ++ toString n
  else toString n

/-- Python `now.strftime("%Y-%m-%d")`. -/
def strftimeDate (t : PyDateTime) : String :=
  pad4 t.year ++ "-" ++ pad2 t.month ++ "-" ++ pad2 t.day

/-- Python `now.strftime("%Y-%m-%d %H:%M:%S")`. -/
def strftimeFull (t : PyDateTime) : String :=
  strftimeDate t ++ " " ++ pad2 t.hour ++ ":" ++ pad2 t.minute ++ ":" ++ pad2 t.second

/-- A row of the `tasks` table, as the analytics read it (nullable columns
are `Option`; `TIMESTAMP` columns hold the strings the API stored). -/
structure Task where
  id : String := ""
  title : String := ""
  description : Option String := none
  category : Option String := none
  priority : Option Int := none
  status : String := "pending"
  created_at : Option String := none
  due_date : Option String := none
  completed_at : Option String := none
  recurring_type : Option String := none
  parent_task_id : Option String := none
  user_id : String := ""
deriving DecidableEq

/-- A row of the `user_activity` table (read-only input of
`analyze_productive_time`, which ignores it). -/
structure ActivityLog where
  user_id : String := ""
  task_id : Option String := none
  action_type : String := ""
  timestamp : Option String := none
  metadata : Option String := none
deriving DecidableEq

/-- A row of the `notification_settings` table. -/
structure NotificationSettings where
  user_id : String := ""
  enable_push : Bool := true
  focus_hours : String := "[]"
  notification_frequency : String := "medium"
deriving DecidableEq

/-- Python `x or default` on a nullable string: `None` and the empty
string are falsy. -/
def pyOrStr (x : Option String) (d : String) : String :=
  match x with
  | none => d
  | some s => if s = "" then d else s

/-- Python `x or default` on a nullable int: `None` and `0` are falsy. -/
def pyOrInt (x : Option Int) (d : Int) : Int :=
  match x with
  | none => d
  | some v => if v = 0 then d else v

/-- Python truthiness of a nullable string field. -/
def strTruthy (x : Option String) : Bool :=
  match x with
  | none => false
  | some s => s != ""

/-- One step of Python's stable descending sort: insert `x` after the
existing elements whose key is strictly greater, before all others (so
key-ties keep their original relative order). -/
def insertDesc {α β : Type} (key : α → β) [LinearOrder β] (x : α) : List α → List α
  | [] => [x]
  | y :: ys => if key x < key y then y :: insertDesc key x ys else x :: y :: ys

/-- Model of Python `sorted(l, key=key, reverse=True)` / `l.sort(key=key,
reverse=True)`: a stable descending sort by `key`. -/
def pySortDesc {α β : Type} (key : α → β) [LinearOrder β] : List α → List α
  | [] => []
  | x :: xs => insertDesc key x (pySortDesc key xs)

/-- Model of Python `max(x :: l, key=f)`: the first element attaining the
maximal key (the running maximum is replaced only on strictly greater). -/
def pyMaxBy {α β : Type} (f : α → β) [LinearOrder β] : α → List α → α
  | x, [] => x
  | x, y :: ys => if f x < f y then pyMaxBy f y ys else pyMaxBy f x ys

/-- Model of Python `min(x :: l, key=f)`: the first element attaining the
minimal key. -/
def pyMinBy {α β : Type} (f : α → β) [LinearOrder β] : α → List α → α
  | x, [] => x
  | x, y :: ys => if f y < f x then pyMinBy f y ys else pyMinBy f x ys

/-- Result payload of `analyze_productive_time`. -/
structure ProductiveTimeResult where
  productive_hours : List String
  message : String
  hour_data : List (Nat × Nat)
deriving DecidableEq

/-- Hour in 12-hour clock with AM/PM, exactly as the formatting loop of
`analyze_productive_time` builds it. -/
def format12 (hour : Nat) : String :=
  let ampm := if hour < 12 then "AM" else "PM"
  let f := if hour < 12 then hour else hour - 12
  let f2 := if f = 0 then 12 else f
  toString f2 ++ " " ++ ampm

/-- The completion hour contributed by one task: `completed_at` must be
truthy and parse (the `try` block skips failures). -/
def completionHour (t : Task) : Option Nat :=
  match t.completed_at with
  | none => none
  | some s => if s = "" then none else (fromisoformatCore s).map PyDateTime.hour

/-- The list `completion_hours` of `analyze_productive_time`. -/
def completionHours (completed_tasks : List Task) : List Nat :=
  completed_tasks.filterMap completionHour

/-- Count of completions in one hour bucket. -/
def hourCount (completed_tasks : List Task) (h : Nat) : Nat :=
  (completionHours completed_tasks).count h

/-- The `hour_counts` histogram: all 24 buckets in insertion order. -/
def hourCounts (completed_tasks : List Task) : List (Nat × Nat) :=
  (List.range 24).map (fun h => (h, hourCount completed_tasks h))

/-- The `top_hours` selection: first three entries of the stable
descending sort of the histogram by count. -/
def topHours (completed_tasks : List Task) : List (Nat × Nat) :=
  (pySortDesc Prod.snd (hourCounts completed_tasks)).take 3

/-- The `formatted_hours` list: the selected buckets with non-zero
count, rendered in 12-hour clock. -/
def formattedHours (completed_tasks : List Task) : List String :=
  ((topHours completed_tasks).filter (fun p => 0 < p.2)).map (fun p => format12 p.1)

/-- `analyze_productive_time`: bucket parseable completion timestamps by
hour, pick the top 3 buckets of the stable descending sort, format the
non-empty ones. -/
def analyze_productive_time (completed_tasks : List Task)
    (activity_logs : List ActivityLog) : Option ProductiveTimeResult :=
  if completed_tasks = [] then none
  else if completionHours completed_tasks = [] then none
  else
    some { productive_hours := formattedHours completed_tasks
         , message := "You" ++ apos ++ "re most productive around "
             ++ String.intercalate ", " (formattedHours completed_tasks)
         , hour_data := hourCounts completed_tasks }

/-- Result payload of `analyze_completion_rate`. -/
structure CompletionRateResult where
  completion_rate : ℚ
  on_time_percentage : PyNum
  completed_count : Nat
  pending_count : Nat
  message : String
deriving DecidableEq

/-- On-time classification of one completed task: `some b` when both
`due_date` and `completed_at` are truthy and parse (`b` is
`completed_at <= due_date`), `none` when the task is skipped. -/
def taskOnTime? (t : Task) : Option Bool :=
  match t.due_date, t.completed_at with
  | some ds, some cs =>
    if ds = "" ∨ cs = "" then none
    else
      match fromisoformatCore ds, fromisoformatCore cs with
      | some due, some comp => some (decide (toEpochSecs comp ≤ toEpochSecs due))
      | _, _ => none
  | _, _ => none

/-- `analyze_completion_rate`: overall completion rate plus the on-time
rate over the tasks with both dates parseable. -/
def analyze_completion_rate (completed_tasks pending_tasks : List Task) :
    Option CompletionRateResult :=
  if completed_tasks.length + pending_tasks.length = 0 then none
  else
    let completion_rate : ℚ :=
      (completed_tasks.length : ℚ)
        / ((completed_tasks.length : ℚ) + (pending_tasks.length : ℚ)) * 100
    let ots := completed_tasks.filterMap taskOnTime?
    let on_time_percentage : PyNum :=
      if 0 < ots.length then .float ((ots.count true : ℚ) / (ots.length : ℚ) * 100)
      else .int 0
    some { completion_rate := round1 completion_rate
         , on_time_percentage := pyRound1 on_time_percentage
         , completed_count := completed_tasks.length
         , pending_count := pending_tasks.length
         , message := "You" ++ apos ++ "ve completed " ++ fmtRat1 (round1 completion_rate)
             ++ "% of your tasks, with " ++ (pyRound1 on_time_percentage).render
             ++ "% completed on time." }

/-- Per-category accumulator of `analyze_category_performance`. -/
structure CatData where
  count : Nat
  on_time : Nat
  total_with_due_date : Nat
deriving DecidableEq

/-- One entry of the `categories` list in the category-performance
payload. -/
structure CategoryEntry where
  category : String
  task_count : Nat
  on_time_percentage : PyNum
deriving DecidableEq

/-- Result payload of `analyze_category_performance`. -/
structure CategoryPerformanceResult where
  categories : List CategoryEntry
  message : String
deriving DecidableEq

/-- The category key of a task: `task['category'] or 'Uncategorized'`. -/
def catKey (t : Task) : String := pyOrStr t.category "Uncategorized"

/-- Update one category accumulator with one task (the count always
increments; the date counters only when both dates parse). -/
def bumpCat (d : CatData) (ot : Option Bool) : CatData :=
  match ot with
  | none => { d with count := d.count + 1 }
  | some true => ⟨d.count + 1, d.on_time + 1, d.total_with_due_date + 1⟩
  | some false => ⟨d.count + 1, d.on_time, d.total_with_due_date + 1⟩

/-- Update of the category dict for one key and one on-time
classification: create the entry if absent (Python dicts keep insertion
order, modelled by an association list extended at the tail), then bump
the entry at the key. -/
def catStepKey (cats : List (String × CatData)) (c : String) (ot : Option Bool) :
    List (String × CatData) :=
  (if cats.any (fun p => p.1 = c) then cats else cats ++ [(c, ⟨0, 0, 0⟩)]).map
    (fun p => if p.1 = c then (p.1, bumpCat p.2 ot) else p)

/-- One iteration of the grouping loop of `analyze_category_performance`:
compute the task's category key and date classification, update the
dict. -/
def catStep (cats : List (String × CatData)) (t : Task) : List (String × CatData) :=
  catStepKey cats (catKey t) (taskOnTime? t)

/-- The `{category, task_count, on_time_percentage}` record built per
category. -/
def catEntry (p : String × CatData) : CategoryEntry :=
  { category := p.1
  , task_count := p.2.count
  , on_time_percentage :=
      pyRound1 (if 0 < p.2.total_with_due_date then
          .float ((p.2.on_time : ℚ) / (p.2.total_with_due_date : ℚ) * 100)
        else .int 0) }

/-- Message template of the single-category case. -/
def singleCatMsg (e : CategoryEntry) : String :=
  "You" ++ apos ++ "ve completed " ++ toString e.task_count ++ " tasks in the "
    ++ apos ++ e.category ++ apos ++ " category"

/-- Message template naming the best-performing category. -/
def bestCatMsg (e : CategoryEntry) : String :=
  "You perform best in " ++ apos ++ e.category ++ apos ++ " tasks ("
    ++ e.on_time_percentage.render ++ "% on time)"

/-- Message suffix naming the worst-performing category. -/
def worstCatMsg (e : CategoryEntry) : String :=
  " and may need improvement in " ++ apos ++ e.category ++ apos ++ " ("
    ++ e.on_time_percentage.render ++ "% on time)"

/-- The message-building tail of `analyze_category_performance`: the
single-category branch indexes `category_performance[0]`; the
multi-category branch takes `max`/`min` by on-time percentage and
mentions the worst only below the fixed threshold 70.  The `[]` case is
unreachable (the function guards on non-empty input). -/
def catMessage : List CategoryEntry → String
  | [] => ""
  | e :: rest =>
    if rest = [] then singleCatMsg e
    else
      let best := pyMaxBy (fun x => x.on_time_percentage.toRat) e rest
      let worst := pyMinBy (fun x => x.on_time_percentage.toRat) e rest
      if worst.on_time_percentage.toRat < 70 then bestCatMsg best ++ worstCatMsg worst
      else bestCatMsg best

/-- The `category_performance` list: one entry per category in dict
insertion order, sorted stably by task count descending. -/
def catPerformance (completed_tasks : List Task) : List CategoryEntry :=
  pySortDesc (fun e => e.task_count) ((completed_tasks.foldl catStep []).map catEntry)

/-- `analyze_category_performance`: group completed tasks by category,
compute per-category counts and on-time rates, sort by task count
(stable, descending), and build the message. -/
def analyze_category_performance (completed_tasks : List Task) :
    Option CategoryPerformanceResult :=
  if completed_tasks = [] then none
  else
    some { categories := catPerformance completed_tasks
         , message := catMessage (catPerformance completed_tasks) }

/-- One recommendation entry of `recommend_task_order`. -/
structure RecEntry where
  id : String
  title : String
  score : Int
  priority : Int
  due_date : Option String
  category : String
deriving DecidableEq

/-- Result payload of `recommend_task_order`. -/
structure RecommendResult where
  recommended_tasks : List RecEntry
  message : String
  reasoning : String
deriving DecidableEq

/-- Base score of the recommender: `(6 - priority) * 10` with
`task['priority'] or 3` as the priority. -/
def baseScore (p : Option Int) : Int := (6 - pyOrInt p 3) * 10

/-- Due-date urgency bonus of the recommender: classified by the
`timedelta` day difference between the due date and now; a missing,
empty or unparseable due date contributes 0 (the parse sits in a `try`
block). -/
def dueDateScore (d : Option String) (now : PyDateTime) : Int :=
  match d with
  | none => 0
  | some ds =>
    if ds = "" then 0
    else
      match fromisoformatCore ds with
      | none => 0
      | some due =>
        let days := timedeltaDays due now
        if days < 0 then 40
        else if days = 0 then 30
        else if days = 1 then 20
        else if days < 7 then 10
        else 0

/-- Total score of one pending task. -/
def taskScore (t : Task) (now : PyDateTime) : Int :=
  baseScore t.priority + dueDateScore t.due_date now

/-- The record the scoring loop appends to `task_scores` for one task. -/
def taskRec (t : Task) (now : PyDateTime) : RecEntry :=
  { id := t.id
  , title := t.title
  , score := taskScore t now
  , priority := pyOrInt t.priority 3
  , due_date := t.due_date
  , category := pyOrStr t.category "Uncategorized" }

/-- The full `task_scores` list (one record per pending task, input
order). -/
def scoredTasks (pending_tasks : List Task) (now : PyDateTime) : List RecEntry :=
  pending_tasks.map (fun t => taskRec t now)

/-- The `task_scores` list after the in-place stable sort by score
descending. -/
def taskScoresSorted (pending_tasks : List Task) (now : PyDateTime) : List RecEntry :=
  pySortDesc (fun r => r.score) (scoredTasks pending_tasks now)

/-- `recommend_task_order`: score every pending task, sort stably by
score descending, keep the top 5. -/
def recommend_task_order (pending_tasks completed_tasks : List Task)
    (now : PyDateTime) : Option RecommendResult :=
  if pending_tasks = [] then none
  else
    some { recommended_tasks := (taskScoresSorted pending_tasks now).take 5
         , message := "Here" ++ apos ++ "s your suggested task order for maximum productivity"
         , reasoning := "Based on urgency, priority, and your past completion patterns" }

/-- Payload of one persisted insight row (`json.dumps` serialization is a
boundary concern; the structured payload is recorded). -/
inductive InsightPayload where
  | productiveTime (r : ProductiveTimeResult)
  | completionRate (r : CompletionRateResult)
  | categoryPerformance (r : CategoryPerformanceResult)
  | recommendations (r : RecommendResult)
deriving DecidableEq

/-- One row appended to `productivity_insights`. -/
structure InsightRecord where
  user_id : String
  insight_type : String
  insight_data : InsightPayload
deriving DecidableEq

/-- Pure core of `generate_task_insights`: which insight rows one run
produces from the fetched snapshots (the fetches and the batch insert are
external collaborators). -/
def generate_task_insights_core (user_id : String)
    (completed_tasks pending_tasks : List Task)
    (activity_logs : List ActivityLog) (now : PyDateTime) : List InsightRecord :=
  if 5 < completed_tasks.length then
    (match analyze_productive_time completed_tasks activity_logs with
     | some r => [⟨user_id, "productive_time", .productiveTime r⟩]
     | none => [])
    ++ (match analyze_completion_rate completed_tasks pending_tasks with
        | some r => [⟨user_id, "completion_rate", .completionRate r⟩]
        | none => [])
    ++ (match analyze_category_performance completed_tasks with
        | some r => [⟨user_id, "category_performance", .categoryPerformance r⟩]
        | none => [])
    ++ (if 1 < pending_tasks.length then
          match recommend_task_order pending_tasks completed_tasks now with
          | some r => [⟨user_id, "task_recommendations", .recommendations r⟩]
          | none => []
        else [])
  else []

/-- One planned notification (`NotificationPlan` item). -/
structure Notification where
  type : String
  title : String
  message : String
  scheduled_time : String
  priority : String
deriving DecidableEq

/-- The filter condition of the `high_priority` list comprehension in
`schedule_smart_notifications`.  The `fromisoformat` call is not inside a
`try` block, so an unparseable (non-empty) due date raises. -/
def highPriorityCheck (t : Task) (now : PyDateTime) : Except PyExc Bool :=
  if t.priority = some 1 ∨ t.priority = some 2 then
    match t.due_date with
    | none => .ok false
    | some ds =>
      if ds = "" then .ok false
      else
        match fromisoformatCore ds with
        | none => .error .valueError
        | some due =>
          if toEpochSecs now < toEpochSecs due then .ok (decide (timedeltaDays due now ≤ 3))
          else .ok false
  else .ok false

/-- A list comprehension whose condition may raise: the first raising
element aborts the whole comprehension. -/
def exceptFilter {ε α : Type} (p : α → Except ε Bool) : List α → Except ε (List α)
  | [] => .ok []
  | x :: xs => do
    let b ← p x
    let rest ← exceptFilter p xs
    pure (if b then x :: rest else rest)

/-- Title of the first pending task (Python indexes `pending_tasks[0]`,
reached only when the list is non-empty). -/
def firstTitle (pending_tasks : List Task) : String :=
  match pending_tasks with
  | [] => ""
  | t :: _ => t.title

/-- Pure core of `schedule_smart_notifications`: from the fetched
settings row, pending tasks and latest productive-time insight payload,
the notification plan.  The early `return` statements return Python
`None`, modelled as `Option.none`; the unguarded `fromisoformat` in the
`high_priority` comprehension can raise. -/
def schedule_smart_notifications (settings : Option NotificationSettings)
    (pending_tasks : List Task) (productive_time_insight : Option ProductiveTimeResult)
    (now : PyDateTime) : Except PyExc (Option (List Notification)) :=
  match settings with
  | none => .ok none
  | some st =>
    if !st.enable_push then .ok none
    else if pending_tasks = [] then .ok none
    else
      let due_today := pending_tasks.filter (fun t =>
        match t.due_date with
        | none => false
        | some ds => ds != "" && ds.startsWith (strftimeDate now))
      let notifications1 : List Notification :=
        if due_today = [] then []
        else
          let task_names := (due_today.take 3).map (fun t => t.title)
          let task_names2 :=
            if 3 < due_today.length then
              task_names ++ ["and " ++ toString (due_today.length - 3) ++ " more"]
            else task_names
          [{ type := "due_today"
           , title := "You have " ++ toString due_today.length ++ " tasks due today"
           , message := "Tasks due today: " ++ String.intercalate ", " task_names2
           , scheduled_time := strftimeFull now
           , priority := "high" }]
      match exceptFilter (fun t => highPriorityCheck t now) pending_tasks with
      | .error e => .error e
      | .ok high_priority =>
        let notifications2 : List Notification :=
          if high_priority = [] then []
          else
            [{ type := "high_priority"
             , title := "High priority tasks coming up"
             , message := "Remember to work on: "
                 ++ String.intercalate ", " ((high_priority.take 2).map (fun t => t.title))
             , scheduled_time := strftimeFull (ofEpochSecs (toEpochSecs now + 7200))
             , priority := "medium" }]
        let notifications3 : List Notification :=
          match productive_time_insight with
          | none => []
          | some ins =>
            if ins.productive_hours ≠ [] ∧ pending_tasks ≠ [] then
              [{ type := "productive_time"
               , title := "It" ++ apos ++ "s your productive time!"
               , message := "This is usually when you get the most done. Time to tackle "
                   ++ apos ++ firstTitle pending_tasks ++ apos ++ "?"
               , scheduled_time := "Next occurrence of productive time"
               , priority := "low" }]
            else []
        .ok (some (notifications1 ++ notifications2 ++ notifications3))

/-- The recommender score exactly as claim C3 words it: base
`(6 - priority) * 10` with priority taken as 3 only when missing/null,
plus the urgency bonus by whole-day difference (negative: 40, zero: 30,
one: 20, two to six: 10, otherwise or no/unparseable due date: 0). -/
def claimScoreStated (t : Task) (now : PyDateTime) : Int :=
  let p : Int :=
    match t.priority with
    | none => 3
    | some v => v
  let bonus : Int :=
    match t.due_date with
    | none => 0
    | some ds =>
      match fromisoformatCore ds with
      | none => 0
      | some due =>
        let days := timedeltaDays due now
        if days < 0 then 40
        else if days = 0 then 30
        else if days = 1 then 20
        else if 2 ≤ days ∧ days ≤ 6 then 10
        else 0
  (6 - p) * 10 + bonus

/-- Claim C3's score formula amended by what the code does with a falsy
priority: `task['priority'] or 3` also replaces the integer 0 by the
default 3. -/
def claimScoreAmended (t : Task) (now : PyDateTime) : Int :=
  let p : Int :=
    match t.priority with
    | none => 3
    | some v => if v = 0 then 3 else v
  let bonus : Int :=
    match t.due_date with
    | none => 0
    | some ds =>
      match fromisoformatCore ds with
      | none => 0
      | some due =>
        let days := timedeltaDays due now
        if days < 0 then 40
        else if days = 0 then 30
        else if days = 1 then 20
        else if 2 ≤ days ∧ days ≤ 6 then 10
        else 0
  (6 - p) * 10 + bonus

/-- Sample current instant used by the concrete scenarios:
2026-10-12 09:30:00. -/
def now0 : PyDateTime := ⟨2026, 10, 12, 9, 30, 0⟩

/-- Pending task, priority 1, due yesterday relative to `now0`. -/
def taskYesterday : Task :=
  { id := "y", title := "Yesterday", priority := some 1
  , due_date := some "2026-10-11", user_id := "u" }

/-- Pending task, priority 5, due ten days after `now0`. -/
def taskTenDays : Task :=
  { id := "ten", title := "TenDays", priority := some 5
  , due_date := some "2026-10-22", user_id := "u" }

/-- Pending task whose stored priority is the integer 0 (outside 1 to 5,
and falsy in Python). -/
def task_p0 : Task :=
  { id := "p0", title := "ZeroPriority", priority := some 0, user_id := "u" }

/-- Pending task whose stored priority is the integer 7 (outside 1 to 5,
truthy). -/
def task_p7 : Task :=
  { id := "p7", title := "SevenPriority", priority := some 7, user_id := "u" }

/-- Task with non-empty but unparseable date strings and priority 1. -/
def taskBad : Task :=
  { id := "bad", title := "BadDates", priority := some 1
  , due_date := some "not-a-date", completed_at := some "not-a-date"
  , user_id := "u" }

/-- Completed task with a parseable completion timestamp (hour 14). -/
def taskGoodC : Task :=
  { id := "good", title := "Good", category := some "Work", status := "completed"
  , completed_at := some "2026-10-10T14:30:00", user_id := "u" }

/-- Completed task in category Work without dates. -/
def w1 : Task :=
  { id := "w1", title := "WorkOne", category := some "Work"
  , status := "completed", user_id := "u" }

/-- Second completed task in category Work without dates. -/
def w2 : Task :=
  { id := "w2", title := "WorkTwo", category := some "Work"
  , status := "completed", user_id := "u" }

/-- Six completed tasks without due dates (the completion-rate
scenario). -/
def sixTasks : List Task :=
  (List.range 6).map (fun i =>
    { id := toString i, title := toString i, status := "completed", user_id := "u" })

/-- Pending task, priority 2, due later on the day of `now0`. -/
def pA : Task :=
  { id := "a", title := "TaskA", priority := some 2
  , due_date := some "2026-10-12T18:00:00", user_id := "u" }

/-- Pending task, priority 4, no due date. -/
def pB : Task := { id := "b", title := "TaskB", priority := some 4, user_id := "u" }

/-- A two-element pending list. -/
def pendingTwo : List Task := [pA, pB]

/-- Settings row with push notifications enabled. -/
def settingsOn : NotificationSettings := { user_id := "u", enable_push := true }

/-- Settings row with push notifications disabled. -/
def settingsOff : NotificationSettings := { user_id := "u", enable_push := false }

/-- Category-performance result of `[w1, w2]`. -/
def catResult1 : CategoryPerformanceResult :=
  { categories := [⟨"Work", 2, PyNum.int 0⟩]
  , message := singleCatMsg ⟨"Work", 2, PyNum.int 0⟩ }

/-- Completion-rate result of `[taskBad, taskGoodC]` versus no pending
tasks. -/
def crA : CompletionRateResult :=
  { completion_rate := 100, on_time_percentage := .int 0
  , completed_count := 2, pending_count := 0
  , message := "You" ++ apos
      ++ "ve completed 100.0% of your tasks, with 0% completed on time." }

/-- Completion-rate result of `[taskGoodC]` versus no pending tasks. -/
def crB : CompletionRateResult :=
  { completion_rate := 100, on_time_percentage := .int 0
  , completed_count := 1, pending_count := 0
  , message := "You" ++ apos
      ++ "ve completed 100.0% of your tasks, with 0% completed on time." }

/-- Completion-rate result of `sixTasks` versus no pending tasks: rate
100.0, on-time percentage the int 0. -/
def sixResult : CompletionRateResult :=
  { completion_rate := 100, on_time_percentage := .int 0
  , completed_count := 6, pending_count := 0
  , message := "You" ++ apos
      ++ "ve completed 100.0% of your tasks, with 0% completed on time." }

/-- Productive-time result of `[taskGoodC]`: single completion at hour
14. -/
def ptR1 : ProductiveTimeResult :=
  { productive_hours := ["2 PM"]
  , message := "You" ++ apos ++ "re most productive around 2 PM"
  , hour_data := (List.range 24).map (fun h => (h, if h = 14 then 1 else 0)) }

/-- Task whose category is the empty string. -/
def taskEmptyCat : Task :=
  { id := "e", title := "EmptyCat", category := some "", user_id := "u" }

/-- Inserting with `insertDesc` permutes to consing. -/
theorem insertDesc_perm {α β : Type} (key : α → β) [LinearOrder β] (x : α) (l : List α) :
    (insertDesc key x l).Perm (x :: l) := by
  induction l with
  | nil => exact List.Perm.refl _
  | cons y ys ih =>
    by_cases h : key x < key y
    · simp only [insertDesc, if_pos h]
      exact (ih.cons y).trans (List.Perm.swap x y ys)
    · simp only [insertDesc, if_neg h]
      exact List.Perm.refl _

/-- `pySortDesc` is a permutation. -/
theorem pySortDesc_perm {α β : Type} (key : α → β) [LinearOrder β] (l : List α) :
    (pySortDesc key l).Perm l := by
  induction l with
  | nil => exact List.Perm.refl _
  | cons x xs ih => exact (insertDesc_perm key x _).trans (ih.cons x)

/-- Stability of `insertDesc`: inserting an element whose position marker
is below every marker in a lexicographically sorted list keeps the list
lexicographically sorted (key descending, marker ascending on key
ties). -/
theorem insertDesc_pairwise_lex {α β : Type} (key : α → β) [LinearOrder β] (m : α → Nat)
    (x : α) (l : List α)
    (hl : l.Pairwise (fun a b => key b < key a ∨ (key a = key b ∧ m a < m b)))
    (hx : ∀ a ∈ l, m x < m a) :
    (insertDesc key x l).Pairwise
      (fun a b => key b < key a ∨ (key a = key b ∧ m a < m b)) := by
  induction l with
  | nil => simp [insertDesc]
  | cons y ys ih =>
    rcases List.pairwise_cons.mp hl with ⟨hy, hys⟩
    by_cases h : key x < key y
    · simp only [insertDesc, if_pos h]
      refine List.pairwise_cons.mpr ⟨?_, ih hys (fun a ha => hx a (List.mem_cons_of_mem _ ha))⟩
      intro b hb
      rcases List.mem_cons.mp ((insertDesc_perm key x ys).mem_iff.mp hb) with rfl | hbys
      · exact Or.inl h
      · exact hy b hbys
    · simp only [insertDesc, if_neg h]
      push_neg at h
      refine List.pairwise_cons.mpr ⟨?_, hl⟩
      intro b hb
      rcases List.mem_cons.mp hb with rfl | hbys
      · rcases lt_or_eq_of_le h with hlt | heq
        · exact Or.inl hlt
        · exact Or.inr ⟨heq.symm, hx b (List.mem_cons_self _ _)⟩
      · have hby : key b ≤ key y := by
          rcases hy b hbys with h1 | h2
          · exact le_of_lt h1
          · exact le_of_eq h2.1.symm
        rcases lt_or_eq_of_le (le_trans hby h) with hlt | heq
        · exact Or.inl hlt
        · exact Or.inr ⟨heq.symm, hx b (List.mem_cons_of_mem _ hbys)⟩

/-- Stability of `pySortDesc`: on input with strictly increasing position
markers, the sort result is lexicographically sorted: key strictly
descending, position marker ascending on key ties. -/
theorem pySortDesc_pairwise_lex {α β : Type} (key : α → β) [LinearOrder β] (m : α → Nat)
    (l : List α) (hl : l.Pairwise (fun a b => m a < m b)) :
    (pySortDesc key l).Pairwise
      (fun a b => key b < key a ∨ (key a = key b ∧ m a < m b)) := by
  induction l with
  | nil => simp [pySortDesc]
  | cons x xs ih =>
    rcases List.pairwise_cons.mp hl with ⟨hx, hxs⟩
    simp only [pySortDesc]
    exact insertDesc_pairwise_lex key m x _ (ih hxs)
      (fun a ha => hx a ((pySortDesc_perm key xs).mem_iff.mp ha))

/-- `insertDesc` on pairs keyed by the second component commutes with
projecting the second component. -/
theorem insertDesc_map_snd {γ α β : Type} (key : α → β) [LinearOrder β]
    (x : γ × α) (l : List (γ × α)) :
    (insertDesc (fun p => key p.2) x l).map Prod.snd
      = insertDesc key x.2 (l.map Prod.snd) := by
  induction l with
  | nil => rfl
  | cons y ys ih =>
    by_cases h : key x.2 < key y.2
    · simp only [insertDesc, List.map_cons, if_pos h, ih]
    · simp only [insertDesc, List.map_cons, if_neg h]

/-- `pySortDesc` on pairs keyed by the second component commutes with
projecting the second component. -/
theorem pySortDesc_map_snd {γ α β : Type} (key : α → β) [LinearOrder β]
    (l : List (γ × α)) :
    (pySortDesc (fun p => key p.2) l).map Prod.snd = pySortDesc key (l.map Prod.snd) := by
  induction l with
  | nil => rfl
  | cons x xs ih =>
    simp only [pySortDesc, List.map_cons, insertDesc_map_snd, ih]

/-- Position markers in `List.enumFrom` are at least the start index. -/
theorem enumFrom_fst_ge {α : Type} (n : Nat) (l : List α) :
    ∀ p ∈ List.enumFrom n l, n ≤ p.1 := by
  induction l generalizing n with
  | nil => simp
  | cons x xs ih =>
    intro p hp
    rcases List.mem_cons.mp hp with rfl | hp2
    · exact le_refl n
    · exact Nat.le_of_succ_le (ih (n + 1) p hp2)

/-- Position markers in `List.enumFrom` are strictly increasing. -/
theorem enumFrom_pairwise_fst {α : Type} (n : Nat) (l : List α) :
    (List.enumFrom n l).Pairwise (fun a b => a.1 < b.1) := by
  induction l generalizing n with
  | nil => simp
  | cons x xs ih =>
    refine List.pairwise_cons.mpr ⟨?_, ih (n + 1)⟩
    intro b hb
    exact Nat.lt_of_succ_le (enumFrom_fst_ge (n + 1) xs b hb)

/-- Dropping the position markers of `List.enumFrom` recovers the list. -/
theorem enumFrom_snd {α : Type} (n : Nat) (l : List α) :
    (List.enumFrom n l).map Prod.snd = l := by
  induction l generalizing n with
  | nil => rfl
  | cons x xs ih => simp only [List.enumFrom, List.map_cons, ih]

/-- `pyMaxBy` returns an element of the scanned list. -/
theorem pyMaxBy_mem {α β : Type} (f : α → β) [LinearOrder β] :
    ∀ (l : List α) (x : α), pyMaxBy f x l ∈ x :: l := by
  intro l
  induction l with
  | nil => intro x; simp [pyMaxBy]
  | cons y ys ih =>
    intro x
    by_cases h : f x < f y
    · simp only [pyMaxBy, if_pos h]
      exact List.mem_cons_of_mem _ (ih y)
    · simp only [pyMaxBy, if_neg h]
      rcases List.mem_cons.mp (ih x) with h2 | h2
      · rw [h2]; exact List.mem_cons_self _ _
      · exact List.mem_cons_of_mem _ (List.mem_cons_of_mem _ h2)

/-- `pyMaxBy` attains the maximal key of the scanned list. -/
theorem pyMaxBy_le {α β : Type} (f : α → β) [LinearOrder β] :
    ∀ (l : List α) (x : α), ∀ a ∈ x :: l, f a ≤ f (pyMaxBy f x l) := by
  intro l
  induction l with
  | nil =>
    intro x a ha
    rcases List.mem_cons.mp ha with rfl | h
    · exact le_refl _
    · simp at h
  | cons y ys ih =>
    intro x a ha
    by_cases h : f x < f y
    · simp only [pyMaxBy, if_pos h]
      rcases List.mem_cons.mp ha with rfl | ha2
      · exact le_trans (le_of_lt h) (ih y y (List.mem_cons_self _ _))
      · exact ih y a ha2
    · simp only [pyMaxBy, if_neg h]
      rcases List.mem_cons.mp ha with rfl | ha2
      · exact ih a a (List.mem_cons_self _ _)
      · rcases List.mem_cons.mp ha2 with rfl | ha3
        · exact le_trans (not_lt.mp h) (ih x x (List.mem_cons_self _ _))
        · exact ih x a (List.mem_cons_of_mem _ ha3)

/-- `pyMinBy` returns an element of the scanned list. -/
theorem pyMinBy_mem {α β : Type} (f : α → β) [LinearOrder β] :
    ∀ (l : List α) (x : α), pyMinBy f x l ∈ x :: l := by
  intro l
  induction l with
  | nil => intro x; simp [pyMinBy]
  | cons y ys ih =>
    intro x
    by_cases h : f y < f x
    · simp only [pyMinBy, if_pos h]
      exact List.mem_cons_of_mem _ (ih y)
    · simp only [pyMinBy, if_neg h]
      rcases List.mem_cons.mp (ih x) with h2 | h2
      · rw [h2]; exact List.mem_cons_self _ _
      · exact List.mem_cons_of_mem _ (List.mem_cons_of_mem _ h2)

/-- `pyMinBy` attains the minimal key of the scanned list. -/
theorem pyMinBy_le {α β : Type} (f : α → β) [LinearOrder β] :
    ∀ (l : List α) (x : α), ∀ a ∈ x :: l, f (pyMinBy f x l) ≤ f a := by
  intro l
  induction l with
  | nil =>
    intro x a ha
    rcases List.mem_cons.mp ha with rfl | h
    · exact le_refl _
    · simp at h
  | cons y ys ih =>
    intro x a ha
    by_cases h : f y < f x
    · simp only [pyMinBy, if_pos h]
      rcases List.mem_cons.mp ha with rfl | ha2
      · exact le_trans (ih y y (List.mem_cons_self _ _)) (le_of_lt h)
      · exact ih y a ha2
    · simp only [pyMinBy, if_neg h]
      rcases List.mem_cons.mp ha with rfl | ha2
      · exact ih a a (List.mem_cons_self _ _)
      · rcases List.mem_cons.mp ha2 with rfl | ha3
        · exact le_trans (ih x x (List.mem_cons_self _ _)) (not_lt.mp h)
        · exact ih x a (List.mem_cons_of_mem _ ha3)

/-- Taking then filtering equals filtering then taking, on a list where
satisfying elements all precede failing ones. -/
theorem filter_take_comm {α : Type} (p : α → Bool) (n : Nat) (l : List α)
    (h : l.Pairwise (fun a b => p b = true → p a = true)) :
    (l.take n).filter p = (l.filter p).take n := by
  induction l generalizing n with
  | nil => simp
  | cons x xs ih =>
    rcases List.pairwise_cons.mp h with ⟨hx, hxs⟩
    cases n with
    | zero => simp
    | succ k =>
      by_cases hp : p x = true
      · simp [List.filter_cons, hp, ih k hxs]
      · have hnil : xs.filter p = [] := by
          refine List.filter_eq_nil_iff.mpr (fun a ha => ?_)
          intro hpa
          exact hp (hx a ha hpa)
        have h2 : (xs.take k).filter p = [] := by
          refine List.filter_eq_nil_iff.mpr (fun a ha => ?_)
          intro hpa
          exact hp (hx a (List.take_subset k xs ha) hpa)
        simp [List.filter_cons, hp, hnil, h2]

/-- Filtering a mapped list equals mapping the filtered preimages. -/
theorem filter_map_comm {α β : Type} (f : α → β) (p : β → Bool) (l : List α) :
    (l.map f).filter p = (l.filter (fun a => p (f a))).map f := by
  induction l with
  | nil => rfl
  | cons x xs ih =>
    by_cases h : p (f x) = true
    · simp [List.filter_cons, h, ih]
    · simp [List.filter_cons, h, ih]

/-- Evaluation helper: floor of the rational 1000. -/
theorem floor_thousand : ⌊(1000 : ℚ)⌋ = 1000 := by
  have h : ((1000 : ℤ) : ℚ) = (1000 : ℚ) := by norm_num
  rw [← h, Int.floor_intCast]

/-- Evaluation helper: rounding the exact float 100 to one decimal gives
100. -/
theorem round1_hundred : round1 (100 : ℚ) = 100 := by
  have h0 : (100 : ℚ) * 10 = 1000 := by norm_num
  simp only [round1, pyRoundHalfEvenInt, h0, floor_thousand]
  norm_num

/-- Evaluation helper: the float 100.0 renders as "100.0". -/
theorem fmtRat1_hundred : fmtRat1 (100 : ℚ) = "100.0" := by
  have h0 : (100 : ℚ) * 10 = 1000 := by norm_num
  simp only [fmtRat1, h0, floor_thousand]
  decide

/-- Evaluation helper: the completion-rate result on a non-empty
completed list with no on-time-classifiable task and no pending tasks. -/
theorem analyze_completion_rate_no_dates (completed : List Task) (h : completed ≠ [])
    (hots : completed.filterMap taskOnTime? = []) :
    analyze_completion_rate completed [] = some
      { completion_rate := 100, on_time_percentage := .int 0
      , completed_count := completed.length, pending_count := 0
      , message := "You" ++ apos
          ++ "ve completed 100.0% of your tasks, with 0% completed on time." } := by
  have hlen : completed.length ≠ 0 := fun hl => h (List.length_eq_zero.mp hl)
  have hcast : (completed.length : ℚ) ≠ 0 := Nat.cast_ne_zero.mpr hlen
  have hrate : (completed.length : ℚ)
      / ((completed.length : ℚ) + (([] : List Task).length : ℚ)) * 100 = 100 := by
    have h2 : (completed.length : ℚ) + (([] : List Task).length : ℚ)
        = (completed.length : ℚ) := by simp
    rw [h2, div_self hcast, one_mul]
  unfold analyze_completion_rate
  rw [if_neg (by simpa using hlen)]
  simp only [hots, hrate, round1_hundred, fmtRat1_hundred]
  rfl

/-- Claim C2 (corrected): the planner is a no-op when `enable_push` is
false or there are no pending tasks — but the no-op value is Python
`None` (absent), produced by the bare `return` statements, not an empty
list. -/
theorem claim_C2 : ∀ (st : NotificationSettings) (pending : List Task)
    (ins : Option ProductiveTimeResult) (now : PyDateTime),
    st.enable_push = false ∨ pending = [] →
    schedule_smart_notifications (some st) pending ins now = .ok none := by
  intro st pending ins now h
  unfold schedule_smart_notifications
  rcases h with h | h
  · simp [h]
  · by_cases hp : st.enable_push
    · simp [h, hp]
    · simp [hp]

/-- Claim C2 counterexample: with `enable_push` false and a non-empty
pending list the planner returns Python `None` (modelled `Option.none`),
which is not the empty list the claim promises. -/
theorem claim_C2_counterexample :
    schedule_smart_notifications (some settingsOff) [task_p7] none now0 = .ok none
    ∧ (Except.ok (none : Option (List Notification)) : Except PyExc (Option (List Notification)))
        ≠ .ok (some []) := by
  constructor
  · rfl
  · simp

/-- Claim C2 witness: the amended statement at a concrete input. -/
theorem claim_C2_witness :
    schedule_smart_notifications (some settingsOff) pendingTwo none now0 = .ok none :=
  claim_C2 settingsOff pendingTwo none now0 (Or.inl rfl)

/-- Claim C3 (corrected): the per-task score is the claimed base plus
urgency bonus, but with the code's Python-falsy default: a stored
priority of 0 — not only a missing/null one — is replaced by the default
3 (`task['priority'] or 3`).  The claim's two scenarios hold: priority 1
due yesterday scores 90, priority 5 due in ten days scores 10. -/
theorem claim_C3 :
    (∀ (t : Task) (now : PyDateTime), taskScore t now = claimScoreAmended t now)
    ∧ taskScore taskYesterday now0 = 90
    ∧ taskScore taskTenDays now0 = 10 := by
  refine ⟨fun t now => ?_, by decide, by decide⟩
  have hbase : baseScore t.priority
      = (6 - (match t.priority with
              | none => (3 : Int)
              | some v => if v = 0 then 3 else v)) * 10 := by
    cases t.priority <;> rfl
  have hbonus : dueDateScore t.due_date now
      = (match t.due_date with
         | none => (0 : Int)
         | some ds =>
           match fromisoformatCore ds with
           | none => 0
           | some due =>
             let days := timedeltaDays due now
             if days < 0 then 40
             else if days = 0 then 30
             else if days = 1 then 20
             else if 2 ≤ days ∧ days ≤ 6 then 10
             else 0) := by
    cases hd : t.due_date with
    | none => rfl
    | some ds =>
      by_cases hds : ds = ""
      · subst hds
        have hparse : fromisoformatCore "" = none := by decide
        simp [dueDateScore, hparse]
      · simp only [dueDateScore, if_neg hds]
        cases hparse : fromisoformatCore ds with
        | none => rfl
        | some due =>
          simp only []
          set days := timedeltaDays due now with hdays
          by_cases h0 : days < 0
          · simp [h0]
          · by_cases h1 : days = 0
            · simp [h0, h1]
            · by_cases h2 : days = 1
              · simp [h0, h1, h2]
              · by_cases h7 : days < 7
                · have h26 : 2 ≤ days ∧ days ≤ 6 := by omega
                  simp [h0, h1, h2, h7, h26]
                · have h26 : ¬(2 ≤ days ∧ days ≤ 6) := by omega
                  simp [h0, h1, h2, h7, h26]
  unfold taskScore claimScoreAmended
  rw [hbase, hbonus]

/-- Claim C3 counterexample: a pending task whose stored priority is the
integer 0 — the code scores it 30 (the falsy value is replaced by the
default 3), while the claim's formula, which defaults only a
missing/null priority, gives 60. -/
theorem claim_C3_counterexample :
    taskScore task_p0 now0 ≠ claimScoreStated task_p0 now0 := by decide

/-- Claim C4 (corrected): an integer priority outside 1–5 is not
rejected and keeps base score `(6 - priority) * 10` — except the integer
0, which Python's `or` treats like missing/null and replaces by the
default 3.  Every pending task is scored (none is dropped). -/
theorem claim_C4 : ∀ (t : Task) (now : PyDateTime) (p : Int) (pending : List Task),
    t.priority = some p → p ≠ 0 → t ∈ pending →
    (taskRec t now).score = (6 - p) * 10 + dueDateScore t.due_date now
    ∧ taskRec t now ∈ scoredTasks pending now := by
  intro t now p pending hp hp0 hmem
  constructor
  · show taskScore t now = _
    unfold taskScore baseScore pyOrInt
    rw [hp]
    simp [hp0]
  · exact List.mem_map_of_mem _ hmem

/-- Claim C4 counterexample: priority 0 is an integer outside 1–5, yet
its base score is not `(6 - 0) * 10 = 60`: the code replaces the falsy 0
by the default 3 and scores 30. -/
theorem claim_C4_counterexample : (taskRec task_p0 now0).score ≠ (6 - 0) * 10 := by decide

/-- Claim C4 witness: priority 7 (outside 1–5, non-zero) keeps the
out-of-range base `(6 - 7) * 10 = -10` and the task is still scored. -/
theorem claim_C4_witness :
    (taskRec task_p7 now0).score = (6 - 7) * 10 + dueDateScore task_p7.due_date now0
    ∧ taskRec task_p7 now0 ∈ scoredTasks [task_p7] now0 :=
  claim_C4 task_p7 now0 7 [task_p7] rfl (by decide) (List.mem_singleton.mpr rfl)

/-- Claim C1 (corrected): the four analytics entry points recover
locally from malformed dates — a task whose completion timestamp does
not parse is excluded from the productive-time sample, one whose dates
do not both parse is excluded from the on-time sample, and an
unparseable due date contributes no urgency bonus — but
`schedule_smart_notifications` does NOT: its `high_priority`
comprehension parses outside any `try` block, so there are inputs
(a pending task with priority 1 or 2 and a non-empty unparseable
due date) on which it raises `ValueError` instead of returning. -/
theorem claim_C1 :
    (∀ (t : Task) (ts : List Task) (logs : List ActivityLog), completionHour t = none →
        analyze_productive_time (t :: ts) logs = analyze_productive_time ts logs)
    ∧ (∀ (t : Task) (ts pending : List Task) (r r2 : CompletionRateResult),
        taskOnTime? t = none →
        analyze_completion_rate (t :: ts) pending = some r →
        analyze_completion_rate ts pending = some r2 →
        r.on_time_percentage = r2.on_time_percentage)
    ∧ (∀ (t : Task) (now : PyDateTime),
        (∀ ds, t.due_date = some ds → fromisoformatCore ds = none) →
        dueDateScore t.due_date now = 0)
    ∧ (∃ (st : NotificationSettings) (pending : List Task) (now : PyDateTime),
        st.enable_push = true ∧ pending ≠ []
        ∧ schedule_smart_notifications (some st) pending none now = .error .valueError) := by
  refine ⟨?_, ?_, ?_, ?_⟩
  · intro t ts logs h
    have hh : completionHours (t :: ts) = completionHours ts := by
      simp [completionHours, List.filterMap_cons, h]
    unfold analyze_productive_time
    by_cases hts : ts = []
    · subst hts
      have h0 : completionHours [t] = [] := by simp [completionHours, h]
      simp [h0, h]
    · have hhc : hourCounts (t :: ts) = hourCounts ts := by simp [hourCounts, hourCount, hh]
      have hfh : formattedHours (t :: ts) = formattedHours ts := by
        simp [formattedHours, topHours, hhc]
      simp [hh, hts, hhc, hfh]
  · intro t ts pending r r2 h hr hr2
    have hfm : (t :: ts).filterMap taskOnTime? = ts.filterMap taskOnTime? := by
      simp [List.filterMap_cons, h]
    unfold analyze_completion_rate at hr hr2
    have hg1 : ¬((t :: ts).length + pending.length = 0) := by simp
    rw [if_neg hg1] at hr
    by_cases hg2 : ts.length + pending.length = 0
    · rw [if_pos hg2] at hr2
      cases hr2
    · rw [if_neg hg2] at hr2
      have hr' := Option.some.inj hr
      have hr2' := Option.some.inj hr2
      rw [← hr', ← hr2']
      simp [hfm]
  · intro t now h
    cases hd : t.due_date with
    | none => rfl
    | some ds =>
      by_cases hds : ds = ""
      · subst hds
        simp [dueDateScore]
      · have hp := h ds hd
        simp [dueDateScore, hds, hp]
  · exact ⟨settingsOn, [taskBad], now0, rfl, by simp, by rfl⟩

/-- Claim C1 counterexample: with push enabled and a single pending task
of priority 1 whose due date is the non-empty unparseable string
"not-a-date", the planner raises `ValueError` — it does not complete and
return a result as the claim states. -/
theorem claim_C1_counterexample :
    schedule_smart_notifications (some settingsOn) [taskBad] none now0
      = .error .valueError := by rfl

/-- Claim C1 witness: the amended exclusion statements at concrete
inputs. -/
theorem claim_C1_witness :
    analyze_productive_time (taskBad :: [taskGoodC]) [] = analyze_productive_time [taskGoodC] []
    ∧ crA.on_time_percentage = crB.on_time_percentage
    ∧ dueDateScore taskBad.due_date now0 = 0 := by
  refine ⟨claim_C1.1 taskBad [taskGoodC] [] (by decide), ?_, ?_⟩
  · exact claim_C1.2.1 taskBad [taskGoodC] [] crA crB (by decide)
      (analyze_completion_rate_no_dates [taskBad, taskGoodC] (by simp) (by decide))
      (analyze_completion_rate_no_dates [taskGoodC] (by simp) (by decide))
  · refine claim_C1.2.2.1 taskBad now0 ?_
    intro ds h
    have hds : ds = "not-a-date" := by
      have h2 : (some "not-a-date" : Option String) = some ds := h
      exact (Option.some.inj h2).symm
    subst hds
    decide

/-- Claim C6 (confirmed): the completion-rate analyzer is absent exactly
when both collections are empty; otherwise the rate is
`completed / (completed + pending) * 100` rounded to one decimal and the
on-time percentage is computed only over the completed tasks whose due
date and completion date both parse, as the int 0 when that subset is
empty; six completed tasks with no due dates and no pending tasks give
rate 100.0 and on-time percentage 0. -/
theorem claim_C6 :
    (∀ completed pending : List Task,
        analyze_completion_rate completed pending = none ↔ (completed = [] ∧ pending = []))
    ∧ (∀ (completed pending : List Task) (r : CompletionRateResult),
        analyze_completion_rate completed pending = some r →
        r.completion_rate = round1 ((completed.length : ℚ)
            / ((completed.length : ℚ) + (pending.length : ℚ)) * 100)
        ∧ r.on_time_percentage =
            (if completed.filterMap taskOnTime? = [] then PyNum.int 0
             else PyNum.float (round1 (((completed.filterMap taskOnTime?).count true : ℚ)
                / ((completed.filterMap taskOnTime?).length : ℚ) * 100))))
    ∧ (∀ t : Task, (taskOnTime? t).isSome ↔
        ∃ ds cs, t.due_date = some ds ∧ t.completed_at = some cs
          ∧ (fromisoformatCore ds).isSome ∧ (fromisoformatCore cs).isSome)
    ∧ analyze_completion_rate sixTasks [] = some sixResult
    ∧ sixResult.completion_rate = 100 ∧ sixResult.on_time_percentage = PyNum.int 0 := by
  have hiff : ∀ completed pending : List Task,
      completed.length + pending.length = 0 ↔ (completed = [] ∧ pending = []) := by
    intro completed pending
    rw [Nat.add_eq_zero, List.length_eq_zero, List.length_eq_zero]
  refine ⟨?_, ?_, ?_, ?_, rfl, rfl⟩
  · intro completed pending
    unfold analyze_completion_rate
    by_cases hg : completed.length + pending.length = 0
    · simp [hg, (hiff completed pending).mp hg]
    · rw [if_neg hg]
      constructor
      · intro hx
        cases hx
      · intro hx
        exact absurd ((hiff completed pending).mpr hx) hg
  · intro completed pending r hr
    unfold analyze_completion_rate at hr
    by_cases hg : completed.length + pending.length = 0
    · rw [if_pos hg] at hr
      cases hr
    · rw [if_neg hg] at hr
      have hr2 := Option.some.inj hr
      subst hr2
      refine ⟨rfl, ?_⟩
      by_cases hots : completed.filterMap taskOnTime? = []
      · simp [hots, pyRound1]
      · rw [if_neg hots]
        simp only [pyRound1]
        rw [if_pos (List.length_pos.mpr hots)]
  · intro t
    have hpe : fromisoformatCore "" = none := by decide
    rcases hd : t.due_date with _ | ds
    · simp [taskOnTime?, hd]
    · rcases hc : t.completed_at with _ | cs
      · simp [taskOnTime?, hd, hc]
      · by_cases hds : ds = "" ∨ cs = ""
        · rcases hds with h1 | h1 <;> subst h1 <;>
            simp [taskOnTime?, hd, hc, hpe]
        · simp only [taskOnTime?, hd, hc, if_neg hds]
          cases hpd : fromisoformatCore ds <;> cases hpc : fromisoformatCore cs <;>
            simp [hpd, hpc]
  · exact analyze_completion_rate_no_dates sixTasks (by decide) (by decide)

/-- Claim C6 witness: the rate formula instantiated on the six-task
scenario. -/
theorem claim_C6_witness :
    sixResult.completion_rate = round1 ((sixTasks.length : ℚ)
        / ((sixTasks.length : ℚ) + ((([] : List Task)).length : ℚ)) * 100) :=
  (claim_C6.2.1 sixTasks [] sixResult claim_C6.2.2.2.1).1

/-- Claim C7 (confirmed): with exactly one category the message is the
single-category template stating its task count; with more than one
category the message names a category attaining the highest on-time
percentage and mentions one attaining the lowest if and only if that
lowest percentage is strictly below 70. -/
theorem claim_C7 : ∀ (completed : List Task) (r : CategoryPerformanceResult),
    analyze_category_performance completed = some r →
    (∀ e, r.categories = [e] → r.message = singleCatMsg e)
    ∧ (1 < r.categories.length →
        ∃ best worst, best ∈ r.categories ∧ worst ∈ r.categories
          ∧ (∀ e ∈ r.categories, e.on_time_percentage.toRat ≤ best.on_time_percentage.toRat)
          ∧ (∀ e ∈ r.categories, worst.on_time_percentage.toRat ≤ e.on_time_percentage.toRat)
          ∧ r.message = (if worst.on_time_percentage.toRat < 70
              then bestCatMsg best ++ worstCatMsg worst
              else bestCatMsg best)) := by
  intro completed r hr
  unfold analyze_category_performance at hr
  by_cases hc : completed = []
  · rw [if_pos hc] at hr
    cases hr
  · rw [if_neg hc] at hr
    have hr2 := (Option.some.inj hr).symm
    have hcat : r.categories = catPerformance completed := by rw [hr2]
    have hmsg : r.message = catMessage (catPerformance completed) := by rw [hr2]
    constructor
    · intro e he
      rw [hmsg, ← hcat, he]
      simp [catMessage]
    · intro hlen
      rw [hcat] at hlen
      cases hE : catPerformance completed with
      | nil => rw [hE] at hlen; simp at hlen
      | cons e rest =>
        rw [hE] at hlen
        have hrest : rest ≠ [] := by
          intro h0
          rw [h0] at hlen
          simp at hlen
        refine ⟨pyMaxBy (fun x => x.on_time_percentage.toRat) e rest,
                pyMinBy (fun x => x.on_time_percentage.toRat) e rest, ?_, ?_, ?_, ?_, ?_⟩
        · rw [hcat, hE]
          exact pyMaxBy_mem (fun x => x.on_time_percentage.toRat) rest e
        · rw [hcat, hE]
          exact pyMinBy_mem (fun x => x.on_time_percentage.toRat) rest e
        · rw [hcat, hE]
          exact pyMaxBy_le (fun x => x.on_time_percentage.toRat) rest e
        · rw [hcat, hE]
          exact pyMinBy_le (fun x => x.on_time_percentage.toRat) rest e
        · rw [hmsg, hE]
          simp [catMessage, hrest]

/-- Claim C7 witness: two completed tasks in one category produce the
single-category template. -/
theorem claim_C7_witness :
    catResult1.message = singleCatMsg ⟨"Work", 2, PyNum.int 0⟩ :=
  (claim_C7 [w1, w2] catResult1 (by decide)).1 ⟨"Work", 2, PyNum.int 0⟩ rfl

/-- Claim C8 (confirmed): a generation run produces no insight records
at all with five or fewer completed tasks; with more than five it
produces exactly one record per analyzer that returns a result, tagged
with the analyzer's type, none for an absent result, and a
task-recommendations record only when there is additionally more than
one pending task. -/
theorem claim_C8 : ∀ (uid : String) (completed pending : List Task)
    (logs : List ActivityLog) (now : PyDateTime),
    (completed.length ≤ 5 → generate_task_insights_core uid completed pending logs now = [])
    ∧ (5 < completed.length →
        ((generate_task_insights_core uid completed pending logs now).countP
            (fun ir => ir.insight_type == "productive_time")
          = if (analyze_productive_time completed logs).isSome then 1 else 0)
        ∧ ((generate_task_insights_core uid completed pending logs now).countP
            (fun ir => ir.insight_type == "completion_rate")
          = if (analyze_completion_rate completed pending).isSome then 1 else 0)
        ∧ ((generate_task_insights_core uid completed pending logs now).countP
            (fun ir => ir.insight_type == "category_performance")
          = if (analyze_category_performance completed).isSome then 1 else 0)
        ∧ ((generate_task_insights_core uid completed pending logs now).countP
            (fun ir => ir.insight_type == "task_recommendations")
          = if 1 < pending.length ∧ (recommend_task_order pending completed now).isSome
            then 1 else 0)) := by
  intro uid completed pending logs now
  constructor
  · intro h
    unfold generate_task_insights_core
    rw [if_neg (by omega)]
  · intro h
    unfold generate_task_insights_core
    rw [if_pos h]
    refine ⟨?_, ?_, ?_, ?_⟩ <;>
    · cases h1 : analyze_productive_time completed logs <;>
      cases h2 : analyze_completion_rate completed pending <;>
      cases h3 : analyze_category_performance completed <;>
      by_cases h4 : 1 < pending.length <;>
      cases h5 : recommend_task_order pending completed now <;>
      simp [List.countP_append, List.countP_cons, h4]

/-- Claim C8 witness: the count of completion-rate records on a concrete
run with six completed tasks and two pending tasks. -/
theorem claim_C8_witness :
    (generate_task_insights_core "u" sixTasks pendingTwo [] now0).countP
        (fun ir => ir.insight_type == "completion_rate")
      = if (analyze_completion_rate sixTasks pendingTwo).isSome then 1 else 0 :=
  ((claim_C8 "u" sixTasks pendingTwo [] now0).2 (by decide)).2.1

/-- Claim C10 (confirmed): a task whose category is the empty string is
treated exactly like one with a missing category: both analyzers behave
identically on the two forms, the recommender annotates it with
"Uncategorized", and the category analyzer groups it into an
"Uncategorized" bucket. -/
theorem claim_C10 : ∀ (t : Task) (ts completed : List Task) (now : PyDateTime),
    t.category = some "" →
    analyze_category_performance (t :: ts)
        = analyze_category_performance ({ t with category := none } :: ts)
    ∧ recommend_task_order (t :: ts) completed now
        = recommend_task_order ({ t with category := none } :: ts) completed now
    ∧ (taskRec t now).category = "Uncategorized"
    ∧ (∃ r, analyze_category_performance (t :: ts) = some r
        ∧ ∃ e ∈ r.categories, e.category = "Uncategorized") := by
  intro t ts completed now h
  have hck : catKey t = catKey { t with category := none } := by
    simp [catKey, pyOrStr, h]
  have hot : taskOnTime? t = taskOnTime? { t with category := none } := rfl
  have hcs : ∀ cats, catStep cats t = catStep cats { t with category := none } := by
    intro cats
    unfold catStep
    rw [hck, ← hot]
  have hrec : taskRec t now = taskRec { t with category := none } now := by
    simp [taskRec, taskScore, baseScore, dueDateScore, pyOrStr, pyOrInt, h]
  have hfold : (t :: ts).foldl catStep []
      = ({ t with category := none } :: ts).foldl catStep [] := by
    simp only [List.foldl_cons, hcs]
  refine ⟨?_, ?_, ?_, ?_⟩
  · unfold analyze_category_performance catPerformance
    rw [hfold]
    simp
  · unfold recommend_task_order taskScoresSorted scoredTasks
    rw [List.map_cons, List.map_cons, hrec]
    simp
  · simp [taskRec, pyOrStr, h]
  · have hkey : ∀ (l : List Task) (cats : List (String × CatData)),
        (∃ p ∈ cats, p.1 = "Uncategorized")
          → ∃ p ∈ l.foldl catStep cats, p.1 = "Uncategorized" := by
      intro l
      induction l with
      | nil => intro cats hp; exact hp
      | cons u us ih =>
        intro cats hp
        rcases hp with ⟨p, hpmem, hpk⟩
        refine ih (catStep cats u) ?_
        unfold catStep catStepKey
        have hpmem2 : p ∈ (if cats.any (fun q => q.1 = catKey u) then cats
            else cats ++ [(catKey u, (⟨0, 0, 0⟩ : CatData))]) := by
          by_cases hany : cats.any (fun q => q.1 = catKey u)
          · rw [if_pos hany]; exact hpmem
          · rw [if_neg hany]; exact List.mem_append_left _ hpmem
        by_cases hpc : p.1 = catKey u
        · exact ⟨(p.1, bumpCat p.2 (taskOnTime? u)),
            List.mem_map.mpr ⟨p, hpmem2, by rw [if_pos hpc]⟩, hpk⟩
        · exact ⟨p, List.mem_map.mpr ⟨p, hpmem2, by rw [if_neg hpc]⟩, hpk⟩
    have hstart : ∃ p ∈ catStep [] t, p.1 = "Uncategorized" := by
      have hk : catKey t = "Uncategorized" := by simp [catKey, pyOrStr, h]
      refine ⟨("Uncategorized", bumpCat ⟨0, 0, 0⟩ (taskOnTime? t)), ?_, rfl⟩
      simp [catStep, catStepKey, hk]
    rcases hkey ts (catStep [] t) hstart with ⟨p, hpmem, hpk⟩
    refine ⟨{ categories := catPerformance (t :: ts)
            , message := catMessage (catPerformance (t :: ts)) }, ?_, ?_⟩
    · unfold analyze_category_performance
      rw [if_neg (by simp)]
    · refine ⟨catEntry p, ?_, ?_⟩
      · show catEntry p ∈ catPerformance (t :: ts)
        unfold catPerformance
        refine (pySortDesc_perm (fun e => e.task_count)
            (((t :: ts).foldl catStep []).map catEntry)).mem_iff.mpr ?_
        refine List.mem_map.mpr ⟨p, ?_, rfl⟩
        simpa [List.foldl_cons] using hpmem
      · simp [catEntry, hpk]

/-- Claim C10 witness: the equal treatment at a concrete task with
category equal to the empty string. -/
theorem claim_C10_witness :
    analyze_category_performance [taskEmptyCat]
        = analyze_category_performance [{ taskEmptyCat with category := none }]
    ∧ recommend_task_order [taskEmptyCat] [] now0
        = recommend_task_order [{ taskEmptyCat with category := none }] [] now0
    ∧ (taskRec taskEmptyCat now0).category = "Uncategorized"
    ∧ (∃ r, analyze_category_performance [taskEmptyCat] = some r
        ∧ ∃ e ∈ r.categories, e.category = "Uncategorized") :=
  claim_C10 taskEmptyCat [] [] now0 rfl

/-- Claim C9 (confirmed): on a non-empty pending list the recommender
returns the first `min 5 n` entries of a sequence that is a permutation
of the scored tasks (tagged by input position), sorted non-increasing by
score with equal-score entries in input order (stable), and repeated
invocation at the same instant gives the same output. -/
theorem claim_C9 : ∀ (pending completed : List Task) (now : PyDateTime), pending ≠ [] →
    ∃ r, recommend_task_order pending completed now = some r
      ∧ r.recommended_tasks.length = min 5 pending.length
      ∧ r.recommended_tasks.Pairwise (fun a b => b.score ≤ a.score)
      ∧ (∃ sorted : List (Nat × RecEntry),
          sorted.Perm (scoredTasks pending now).enum
          ∧ sorted.Pairwise (fun a b => b.2.score ≤ a.2.score)
          ∧ sorted.Pairwise (fun a b => a.2.score = b.2.score → a.1 < b.1)
          ∧ r.recommended_tasks = (sorted.take 5).map Prod.snd)
      ∧ recommend_task_order pending completed now = recommend_task_order pending completed now := by
  intro pending completed now hne
  have hlex : (pySortDesc (fun p => p.2.score) (scoredTasks pending now).enum).Pairwise
      (fun a b => b.2.score < a.2.score ∨ (a.2.score = b.2.score ∧ a.1 < b.1)) := by
    refine pySortDesc_pairwise_lex (fun p : Nat × RecEntry => p.2.score) Prod.fst _ ?_
    have h := enumFrom_pairwise_fst 0 (scoredTasks pending now)
    simpa [List.enum] using h
  have hsnd : ((scoredTasks pending now).enum).map Prod.snd = scoredTasks pending now := by
    have h := enumFrom_snd 0 (scoredTasks pending now)
    simpa [List.enum] using h
  have hmap : (pySortDesc (fun p => p.2.score) (scoredTasks pending now).enum).map Prod.snd
      = taskScoresSorted pending now := by
    have h1 := pySortDesc_map_snd (fun r => r.score) (scoredTasks pending now).enum
    rw [hsnd] at h1
    exact h1
  have hdesc : (taskScoresSorted pending now).Pairwise (fun a b => b.score ≤ a.score) := by
    rw [← hmap]
    refine List.pairwise_map.mpr ?_
    refine hlex.imp ?_
    intro a b hab
    rcases hab with h1 | h1
    · exact le_of_lt h1
    · exact le_of_eq h1.1.symm
  unfold recommend_task_order
  rw [if_neg hne]
  refine ⟨_, rfl, ?_, ?_, ?_, rfl⟩
  · show ((taskScoresSorted pending now).take 5).length = min 5 pending.length
    rw [List.length_take]
    congr 1
    unfold taskScoresSorted
    rw [(pySortDesc_perm (fun r => r.score) (scoredTasks pending now)).length_eq]
    simp [scoredTasks]
  · show ((taskScoresSorted pending now).take 5).Pairwise (fun a b => b.score ≤ a.score)
    exact List.Pairwise.sublist (List.take_sublist 5 _) hdesc
  · refine ⟨pySortDesc (fun p => p.2.score) (scoredTasks pending now).enum,
      pySortDesc_perm _ _, ?_, ?_, ?_⟩
    · refine hlex.imp ?_
      intro a b hab
      rcases hab with h1 | h1
      · exact le_of_lt h1
      · exact le_of_eq h1.1.symm
    · refine hlex.imp ?_
      intro a b hab
      rcases hab with h1 | h1
      · intro heq
        rw [heq] at h1
        exact absurd h1 (lt_irrefl _)
      · exact fun _ => h1.2
    · show (taskScoresSorted pending now).take 5 = _
      rw [List.map_take, hmap]

/-- Claim C9 witness: the statement instantiated on a concrete
two-element pending list. -/
theorem claim_C9_witness :
    ∃ r, recommend_task_order pendingTwo [] now0 = some r
      ∧ r.recommended_tasks.length = min 5 pendingTwo.length
      ∧ r.recommended_tasks.Pairwise (fun a b => b.score ≤ a.score)
      ∧ (∃ sorted : List (Nat × RecEntry),
          sorted.Perm (scoredTasks pendingTwo now0).enum
          ∧ sorted.Pairwise (fun a b => b.2.score ≤ a.2.score)
          ∧ sorted.Pairwise (fun a b => a.2.score = b.2.score → a.1 < b.1)
          ∧ r.recommended_tasks = (sorted.take 5).map Prod.snd)
      ∧ recommend_task_order pendingTwo [] now0 = recommend_task_order pendingTwo [] now0 :=
  claim_C9 pendingTwo [] now0 (by decide)

/-- Claim C5 (confirmed): the productive-time analyzer returns absent
exactly when no input task has a parseable completion timestamp;
otherwise its `productive_hours` renders (12-hour clock, hour 0 as
"12 AM" and hour 12 as "12 PM") a list of buckets that all have non-zero
counts, at most 3 of them (exactly `min 3` the number of non-zero
buckets), ordered by count descending with ties broken by ascending
hour, and containing only hours that beat every non-selected non-zero
bucket in that order. -/
theorem claim_C5 : ∀ (tasks : List Task) (logs : List ActivityLog),
    (analyze_productive_time tasks logs = none
      ↔ ∀ t ∈ tasks, ∀ s, t.completed_at = some s → fromisoformatCore s = none)
    ∧ (∀ r, analyze_productive_time tasks logs = some r →
        ∃ hs : List Nat,
          r.productive_hours = hs.map format12
          ∧ (∀ h2 ∈ hs, 0 < hourCount tasks h2)
          ∧ hs.Pairwise (fun a b => hourCount tasks b < hourCount tasks a
              ∨ (hourCount tasks a = hourCount tasks b ∧ a < b))
          ∧ hs.length = min 3 ((List.range 24).filter (fun h2 => 0 < hourCount tasks h2)).length
          ∧ (∀ h2, h2 < 24 → 0 < hourCount tasks h2 → h2 ∉ hs →
              ∀ h3 ∈ hs, hourCount tasks h2 < hourCount tasks h3
                ∨ (hourCount tasks h3 = hourCount tasks h2 ∧ h3 < h2)))
    ∧ format12 0 = "12 AM" ∧ format12 12 = "12 PM" := by
  have hone : ∀ t : Task, completionHour t = none
      ↔ (∀ s, t.completed_at = some s → fromisoformatCore s = none) := by
    intro t
    have hpe : fromisoformatCore "" = none := by decide
    cases hc : t.completed_at with
    | none => simp [completionHour, hc]
    | some s =>
      by_cases hs : s = ""
      · subst hs
        simp [completionHour, hc, hpe]
      · simp [completionHour, hc, hs, Option.map_eq_none']
  intro tasks logs
  refine ⟨?_, ?_, by decide, by decide⟩
  · unfold analyze_productive_time
    by_cases h1 : tasks = []
    · subst h1
      simp
    · rw [if_neg h1]
      by_cases h2 : completionHours tasks = []
      · rw [if_pos h2]
        constructor
        · intro _ t ht
          exact (hone t).mp (List.filterMap_eq_nil.mp h2 t ht)
        · intro _
          rfl
      · rw [if_neg h2]
        constructor
        · intro hx
          cases hx
        · intro hall
          exact absurd (List.filterMap_eq_nil.mpr fun t ht => (hone t).mpr (hall t ht)) h2
  · intro r hr
    unfold analyze_productive_time at hr
    by_cases h1 : tasks = []
    · rw [if_pos h1] at hr
      cases hr
    rw [if_neg h1] at hr
    by_cases h2 : completionHours tasks = []
    · rw [if_pos h2] at hr
      cases hr
    rw [if_neg h2] at hr
    have hr2 := (Option.some.inj hr).symm
    have hph : r.productive_hours = formattedHours tasks := by rw [hr2]
    have hpairs : (hourCounts tasks).Pairwise (fun a b => a.1 < b.1) := by
      unfold hourCounts
      refine List.pairwise_map.mpr ?_
      simpa using List.pairwise_lt_range 24
    have hSlex : (pySortDesc Prod.snd (hourCounts tasks)).Pairwise
        (fun a b => b.2 < a.2 ∨ (a.2 = b.2 ∧ a.1 < b.1)) :=
      pySortDesc_pairwise_lex Prod.snd Prod.fst _ hpairs
    have hSperm := pySortDesc_perm Prod.snd (hourCounts tasks)
    have hmemS : ∀ p ∈ pySortDesc Prod.snd (hourCounts tasks),
        p.2 = hourCount tasks p.1 ∧ p.1 < 24 := by
      intro p hp
      have hp2 : p ∈ hourCounts tasks := hSperm.mem_iff.mp hp
      rcases List.mem_map.mp hp2 with ⟨h3, hh3, rfl⟩
      exact ⟨rfl, List.mem_range.mp hh3⟩
    have hdc : (pySortDesc Prod.snd (hourCounts tasks)).Pairwise
        (fun a b => (fun p : Nat × Nat => decide (0 < p.2)) b = true
          → (fun p : Nat × Nat => decide (0 < p.2)) a = true) := by
      refine hSlex.imp ?_
      intro a b hab
      simp only [decide_eq_true_eq]
      intro hb
      rcases hab with h3 | h3
      · omega
      · omega
    have hcomm : ((pySortDesc Prod.snd (hourCounts tasks)).take 3).filter
          (fun p : Nat × Nat => decide (0 < p.2))
        = (((pySortDesc Prod.snd (hourCounts tasks)).filter
          (fun p : Nat × Nat => decide (0 < p.2)))).take 3 :=
      filter_take_comm _ 3 _ hdc
    have hFlex := hSlex.filter (fun p : Nat × Nat => decide (0 < p.2))
    refine ⟨((((pySortDesc Prod.snd (hourCounts tasks)).filter
        (fun p : Nat × Nat => decide (0 < p.2))).take 3).map Prod.fst), ?_, ?_, ?_, ?_, ?_⟩
    · rw [hph]
      unfold formattedHours topHours
      rw [hcomm, List.map_map]
      rfl
    · intro h2x hh2x
      rcases List.mem_map.mp hh2x with ⟨q, hq, rfl⟩
      have hqF := List.take_subset 3 _ hq
      have hqS := List.mem_of_mem_filter hqF
      have hqP : 0 < q.2 := by
        have := (List.mem_filter.mp hqF).2
        simpa using this
      rw [← (hmemS q hqS).1]
      exact hqP
    · refine List.pairwise_map.mpr ?_
      have htake := hFlex.sublist (List.take_sublist 3 _)
      refine htake.imp_of_mem ?_
      intro a b ha hb hab
      have haS := List.mem_of_mem_filter (List.take_subset 3 _ ha)
      have hbS := List.mem_of_mem_filter (List.take_subset 3 _ hb)
      rw [← (hmemS a haS).1, ← (hmemS b hbS).1]
      exact hab
    · have hfun : (fun a : Nat => (fun p : Nat × Nat => decide (0 < p.2))
            ((fun h => (h, hourCount tasks h)) a))
          = (fun h2 : Nat => decide (0 < hourCount tasks h2)) := rfl
      have hlenF : ((pySortDesc Prod.snd (hourCounts tasks)).filter
            (fun p : Nat × Nat => decide (0 < p.2))).length
          = ((List.range 24).filter (fun h2 : Nat => decide (0 < hourCount tasks h2))).length := by
        have hperm2 := hSperm.filter (fun p : Nat × Nat => decide (0 < p.2))
        rw [hperm2.length_eq]
        unfold hourCounts
        rw [filter_map_comm, List.length_map, hfun]
      rw [List.length_map, List.length_take, hlenF]
    · intro h2x h24 hpos hnot h3x hh3x
      have hp2 : (h2x, hourCount tasks h2x) ∈ hourCounts tasks := by
        unfold hourCounts
        exact List.mem_map.mpr ⟨h2x, List.mem_range.mpr h24, rfl⟩
      have hpF : (h2x, hourCount tasks h2x)
          ∈ (pySortDesc Prod.snd (hourCounts tasks)).filter
            (fun p : Nat × Nat => decide (0 < p.2)) :=
        List.mem_filter.mpr ⟨hSperm.mem_iff.mpr hp2, by simpa using hpos⟩
      have hsplit := List.take_append_drop 3
        ((pySortDesc Prod.snd (hourCounts tasks)).filter
          (fun p : Nat × Nat => decide (0 < p.2)))
      have hFlex2 : (((pySortDesc Prod.snd (hourCounts tasks)).filter
            (fun p : Nat × Nat => decide (0 < p.2))).take 3
          ++ ((pySortDesc Prod.snd (hourCounts tasks)).filter
            (fun p : Nat × Nat => decide (0 < p.2))).drop 3).Pairwise
          (fun a b => b.2 < a.2 ∨ (a.2 = b.2 ∧ a.1 < b.1)) := by
        rw [hsplit]
        exact hFlex
      have hcross := (List.pairwise_append.mp hFlex2).2.2
      rw [← hsplit] at hpF
      rcases List.mem_append.mp hpF with hta | hdr
      · exact absurd (List.mem_map.mpr ⟨_, hta, rfl⟩) hnot
      · rcases List.mem_map.mp hh3x with ⟨q, hq, rfl⟩
        have hlexq := hcross q hq _ hdr
        have hq2 : q.2 = hourCount tasks q.1 :=
          (hmemS q (List.mem_of_mem_filter (List.take_subset 3 _ hq))).1
        rcases hlexq with h5 | h5
        · left
          rw [← hq2]
          exact h5
        · right
          rw [← hq2]
          exact ⟨h5.1, h5.2⟩

/-- Claim C5 witness: the selection properties instantiated on one task
completed at hour 14 ("2 PM"). -/
theorem claim_C5_witness :
    ∃ hs : List Nat,
      ptR1.productive_hours = hs.map format12
      ∧ (∀ h2 ∈ hs, 0 < hourCount [taskGoodC] h2)
      ∧ hs.Pairwise (fun a b => hourCount [taskGoodC] b < hourCount [taskGoodC] a
          ∨ (hourCount [taskGoodC] a = hourCount [taskGoodC] b ∧ a < b))
      ∧ hs.length = min 3 ((List.range 24).filter
          (fun h2 => 0 < hourCount [taskGoodC] h2)).length
      ∧ (∀ h2, h2 < 24 → 0 < hourCount [taskGoodC] h2 → h2 ∉ hs →
          ∀ h3 ∈ hs, hourCount [taskGoodC] h2 < hourCount [taskGoodC] h3
            ∨ (hourCount [taskGoodC] h3 = hourCount [taskGoodC] h2 ∧ h3 < h2)) :=
  (claim_C5 [taskGoodC] []).2.1 ptR1 (by decide)

end TaskManager
